import Mathlib

/-!
Shallow embedding of the `distributed_service_go` repository, built to check
its natural-language specification. The embedding covers:

* `internal/log/store.go` (Part3 and Part7, which are identical): the
  append-only store file with a buffered writer and flush-before-read.
* `api/v1/error.go` (Part5): the `ErrOffsetOutOfRange` gRPC status.
* `internal/server/server.go` (Part5): the gRPC `Produce` / `Consume`
  handlers, the `ConsumeStream` loop, and the `authenticate` interceptor.
* `internal/server/http.go` (Part1): the HTTP `handleConsume` handler.

Bytes are modelled as `Nat` values below 256; files and buffers as
`List Nat`; Go errors as `Except` / `Option` results. I/O faults of the
buffered writer are made explicit through a `WriteOutcome` parameter so
that error paths of `store.Append` can be reasoned about.
-/

/-! ### Big-endian 64-bit encoding (`encoding/binary`, `enc = binary.BigEndian`) -/

/-- `binary.BigEndian.PutUint64`: the 8-byte big-endian encoding of `v`
(taken mod 2^64, which is what the `uint64` conversion in Go does).
The numerals are 2^56, 2^48, 2^40, 2^32, 2^24, 2^16, 2^8. -/
def putUint64BE (v : Nat) : List Nat :=
  [v / 72057594037927936 % 256,
   v / 281474976710656 % 256,
   v / 1099511627776 % 256,
   v / 4294967296 % 256,
   v / 16777216 % 256,
   v / 65536 % 256,
   v / 256 % 256,
   v % 256]

/-- `binary.BigEndian.Uint64` on an 8-byte slice: big-endian recomposition. -/
def getUint64BE (b : List Nat) : Nat :=
  b.foldl (fun a x => a * 256 + x) 0

theorem putUint64BE_length (v : Nat) : (putUint64BE v).length = 8 := rfl

theorem getUint64BE_putUint64BE (v : Nat) (h : v < 18446744073709551616) :
    getUint64BE (putUint64BE v) = v := by
  simp only [putUint64BE, getUint64BE, List.foldl]
  omega

/-! ### The store (`internal/log/store.go`) -/

/-- `lenWidth = 8`: width of the length prefix of each frame. -/
def lenWidth : Nat := 8

/-- The `store` struct: the underlying file's bytes, the `bufio.Writer`
buffer contents not yet flushed, and the `size` field (`uint64` in Go;
file sizes stay far below 2^64, so overflow is immaterial and `Nat` is
used). The mutex serializes the operations and is not part of the
sequential state. -/
structure Store where
  fileData : List Nat
  buf : List Nat
  size : Nat
  deriving Repr, DecidableEq

/-- `newStore(f)`: records the current file size (`os.Stat`) and wraps the
file in a fresh empty `bufio.Writer`. -/
def newStore (f : List Nat) : Store :=
  { fileData := f, buf := [], size := f.length }

/-- `s.buf.Flush()`: moves the buffered bytes onto the underlying file. -/
def Store.flushBuf (s : Store) : Store :=
  { s with fileData := s.fileData ++ s.buf, buf := [] }

/-- `File.ReadAt(p, off)` with `len(p) = n`: succeeds returning exactly `n`
bytes starting at `off`, or fails (short read / EOF) when fewer than `n`
bytes are available. A zero-length read always succeeds (pread with count
0 returns 0 bytes and no error). -/
def readAtFile (data : List Nat) (off n : Nat) : Option (List Nat) :=
  if n = 0 then some []
  else if off + n ≤ data.length then some ((data.drop off).take n)
  else none

/-- Outcome of one write call on the `bufio.Writer`: `ok` means the bytes
were accepted into the buffer; `fail r` means the write returned an error
leaving the buffer in some state `r` (in Go, a buffered write fails only
when an implicit flush to the underlying file fails, and the residual
buffer contents are implementation-determined). -/
inductive WriteOutcome
  | ok
  | fail (residual : List Nat)
  deriving Repr, DecidableEq

/-- `store.Append(p)` with the outcome of each of its two writes made
explicit: `o1` for `binary.Write(s.buf, enc, uint64(len(p)))` and `o2`
for `s.buf.Write(p)`. Returns `((n, pos), err?)` and the new store state;
on either failure the code returns `(0, 0, err)` before touching
`s.size`. -/
def Store.AppendF (s : Store) (p : List Nat) (o1 o2 : WriteOutcome) :
    ((Nat × Nat) × Bool) × Store :=
  let pos := s.size
  match o1 with
  | .fail r => (((0, 0), true), { s with buf := r })
  | .ok =>
    let s1 := { s with buf := s.buf ++ putUint64BE p.length }
    match o2 with
    | .fail r => (((0, 0), true), { s1 with buf := r })
    | .ok =>
      let s2 := { s1 with buf := s1.buf ++ p }
      let w := p.length + lenWidth
      (((w, pos), false), { s2 with size := s.size + w })

/-- `store.Append(p)` on the fault-free path (both buffered writes accept). -/
def Store.Append (s : Store) (p : List Nat) : (Nat × Nat) × Store :=
  let r := s.AppendF p .ok .ok
  (r.1.1, r.2)

/-- `store.Read(pos)`: flush the buffer, read the 8-byte length at `pos`,
then read that many bytes at `pos + lenWidth`. -/
def Store.Read (s : Store) (pos : Nat) : Option (List Nat) × Store :=
  let s1 := s.flushBuf
  match readAtFile s1.fileData pos lenWidth with
  | none => (none, s1)
  | some sizeBytes =>
    match readAtFile s1.fileData (pos + lenWidth) (getUint64BE sizeBytes) with
    | none => (none, s1)
    | some b => (some b, s1)

/-- `store.ReadAt(p, off)` with `len(p) = n`: flush, then positional read. -/
def Store.ReadAtOp (s : Store) (off n : Nat) : Option (List Nat) × Store :=
  let s1 := s.flushBuf
  (readAtFile s1.fileData off n, s1)

/-- `store.Close()`: flush, then close the file (the file state is kept). -/
def Store.CloseOp (s : Store) : Store :=
  s.flushBuf

/-- One operation on a store, for reasoning about operation sequences.
Append carries the outcomes of its two buffered writes. -/
inductive StoreOp
  | append (p : List Nat) (o1 o2 : WriteOutcome)
  | read (pos : Nat)
  | readAt (off n : Nat)
  | close
  deriving Repr, DecidableEq

/-- Run a sequence of store operations, threading the state. -/
def runOps (s : Store) : List StoreOp → Store
  | [] => s
  | op :: rest =>
    let s1 :=
      match op with
      | .append p o1 o2 => (s.AppendF p o1 o2).2
      | .read pos => (s.Read pos).2
      | .readAt off n => (s.ReadAtOp off n).2
      | .close => s.CloseOp
    runOps s1 rest

/-- Whether an operation is fault-free (its buffered writes all succeed). -/
def StoreOp.ok : StoreOp → Bool
  | .append _ .ok .ok => true
  | .append _ _ _ => false
  | _ => true

/-- Sum of `8 + len p` over the append operations that succeed (success of
`Store.AppendF` depends only on the write outcomes, not on the state). -/
def appendedSum : List StoreOp → Nat
  | [] => 0
  | .append p .ok .ok :: rest => (8 + p.length) + appendedSum rest
  | _ :: rest => appendedSum rest

/-! ### gRPC status codes and `api/v1/error.go` -/

namespace codes

/-- `google.golang.org/grpc/codes`: the numeric values of the codes the
repository mentions. -/
def OK : Nat := 0

def Unknown : Nat := 2

def NotFound : Nat := 5

def PermissionDenied : Nat := 7

end codes

/-- `errdetails.LocalizedMessage`: a locale tag and a localized message. -/
structure LocalizedMessage where
  locale : String
  message : String
  deriving Repr, DecidableEq

/-- A gRPC `status.Status`: numeric code, message, and detail payloads
(only `LocalizedMessage` details occur in this repository). -/
structure GrpcStatus where
  code : Nat
  message : String
  details : List LocalizedMessage
  deriving Repr, DecidableEq

/-- `status.New(code, msg)`: a status with no details. -/
def GrpcStatus.new (code : Nat) (message : String) : GrpcStatus :=
  { code := code, message := message, details := [] }

/-- `st.WithDetails(d)`: fails (returning the original status, as the code
does in its error branch) exactly when the status code is `OK`; otherwise
appends the detail. Marshalling a `LocalizedMessage` cannot fail. -/
def GrpcStatus.withDetails (st : GrpcStatus) (d : LocalizedMessage) : GrpcStatus :=
  if st.code = codes.OK then st
  else { st with details := st.details ++ [d] }

/-- The status code the gRPC transport assigns to a generic error value
that carries no status of its own (`status.Code` on such an error):
`codes.Unknown`. -/
def genericErrorCode : Nat := codes.Unknown

namespace ErrOffsetOutOfRange

/-- `ErrOffsetOutOfRange.GRPStatus()` from `api/v1/error.go`: builds
`status.New(codes.Unknown, "offset out of range: %d")`, then attaches an
`en-US` `LocalizedMessage` detail naming the offset. -/
def GRPStatus (offset : Nat) : GrpcStatus :=
  let st := GrpcStatus.new codes.Unknown ("offset out of range: " ++ toString offset)
  let msg := "The requested offset is outside the log's range: " ++ toString offset
  let d : LocalizedMessage := { locale := "en-US", message := msg }
  st.withDetails d

end ErrOffsetOutOfRange

/-! ### The gRPC server (`internal/server/server.go`) -/

/-- `api_v1.Record`: an opaque byte value plus a server-assigned offset. -/
structure ApiRecord where
  value : List Nat
  offset : Nat
  deriving Repr, DecidableEq

/-- `api_v1.ProduceRequest`. -/
structure ProduceRequest where
  record : ApiRecord
  deriving Repr, DecidableEq

/-- `api_v1.ProduceResponse`. -/
structure ProduceResponse where
  offset : Nat
  deriving Repr, DecidableEq

/-- `api_v1.ConsumeRequest`. -/
structure ConsumeRequest where
  offset : Nat
  deriving Repr, DecidableEq

/-- `api_v1.ConsumeResponse`. -/
structure ConsumeResponse where
  record : ApiRecord
  deriving Repr, DecidableEq

/-- `objectWildcard = "*"`. -/
def objectWildcard : String := "*"

/-- `produceAction = "produce"`. -/
def produceAction : String := "produce"

/-- `consumeAction = "consume"`. -/
def consumeAction : String := "consume"

/-- Observable calls a unary handler makes on its collaborators, in order. -/
inductive ServerEv
  | authCall (subject object action : String)
  | appendCall (r : ApiRecord)
  | readCall (off : Nat)
  deriving Repr, DecidableEq

/-- The `CommitLog` interface consumed by the server: `Append` returns the
assigned offset (and the successor log state), `Read` returns the record
at an offset. `σ` is the commit log's state type; errors are opaque
strings. -/
structure CommitLogOps (σ : Type) where
  append : σ → ApiRecord → Except String (Nat × σ)
  read : σ → Nat → Except String ApiRecord

/-- `grpcServer.Produce`: authorize `(subject, "*", "produce")`; on error
return `(nil, err)`; otherwise `CommitLog.Append` and wrap the offset.
The event list records the collaborator calls in order. -/
def grpcServer.Produce {σ : Type} (cl : CommitLogOps σ)
    (authorize : String → String → String → Option String)
    (subject : String) (req : ProduceRequest) (st : σ) :
    Except String ProduceResponse × σ × List ServerEv :=
  match authorize subject objectWildcard produceAction with
  | some e => (.error e, st, [.authCall subject objectWildcard produceAction])
  | none =>
    match cl.append st req.record with
    | .error e =>
      (.error e, st,
        [.authCall subject objectWildcard produceAction, .appendCall req.record])
    | .ok (off, st1) =>
      (.ok { offset := off }, st1,
        [.authCall subject objectWildcard produceAction, .appendCall req.record])

/-- `grpcServer.Consume`: authorize `(subject, "*", "consume")`; on error
return `(nil, err)`; otherwise `CommitLog.Read` and wrap the record. -/
def grpcServer.Consume {σ : Type} (cl : CommitLogOps σ)
    (authorize : String → String → String → Option String)
    (subject : String) (req : ConsumeRequest) (st : σ) :
    Except String ConsumeResponse × σ × List ServerEv :=
  match authorize subject objectWildcard consumeAction with
  | some e => (.error e, st, [.authCall subject objectWildcard consumeAction])
  | none =>
    match cl.read st req.offset with
    | .error e =>
      (.error e, st,
        [.authCall subject objectWildcard consumeAction, .readCall req.offset])
    | .ok r =>
      (.ok { record := r }, st,
        [.authCall subject objectWildcard consumeAction, .readCall req.offset])

/-! ### The `ConsumeStream` loop (`internal/server/server.go`) -/

/-- Result of the `s.Consume` call inside one `ConsumeStream` iteration,
classified the way the `switch err.(type)` in the code classifies it:
success with a response, `api_v1.ErrOffsetOutOfRange`, or any other
error (carried as an opaque message). -/
inductive ConsumeOutcome
  | ok (res : ConsumeResponse)
  | offsetOutOfRange
  | otherErr (e : String)
  deriving Repr, DecidableEq

/-- State of the `ConsumeStream` loop: the mutable `req.Offset` and the
responses sent on the stream so far, in order. -/
structure LoopState where
  offset : Nat
  sent : List ConsumeResponse
  deriving Repr, DecidableEq

/-- What one loop iteration does: continue with a new state, or return
from the handler with `none` (Go `nil`) or `some e` (an error). -/
inductive StepOutcome
  | cont (st : LoopState)
  | done (e : Option String)
  deriving Repr, DecidableEq

/-- One iteration of the `for`/`select` loop of `ConsumeStream`:
if the stream context is done, return `nil`; otherwise dispatch on the
`Consume` outcome (`nil` → send, `ErrOffsetOutOfRange` → `continue`,
other → return the error); a failed `Send` returns its error, a
successful one is followed by `req.Offset++`. -/
def consumeStreamStep (ctxDone : Bool) (res : ConsumeOutcome)
    (sendErr : Option String) (st : LoopState) : StepOutcome :=
  if ctxDone then .done none
  else
    match res with
    | .offsetOutOfRange => .cont st
    | .otherErr e => .done (some e)
    | .ok r =>
      match sendErr with
      | some e => .done (some e)
      | none => .cont { offset := st.offset + 1, sent := st.sent ++ [r] }

/-- The `Consume` outcome over a commit log modelled as the list of its
records (`Read o` returns the record at index `o`, and
`ErrOffsetOutOfRange` past the end), with authorization granted. -/
def consumeFromLog (log : List ApiRecord) (off : Nat) : ConsumeOutcome :=
  match log.get? off with
  | some r => .ok { record := r }
  | none => .offsetOutOfRange

/-- `fuel` iterations of the `ConsumeStream` loop over a fixed record
list, with the context never done and every `Send` succeeding. Returns
the final loop state and `some e` if the handler returned early. -/
def consumeStreamRun (log : List ApiRecord) : Nat → LoopState → LoopState × Option (Option String)
  | 0, st => (st, none)
  | fuel + 1, st =>
    match consumeStreamStep false (consumeFromLog log st.offset) none st with
    | .cont st1 => consumeStreamRun log fuel st1
    | .done e => (st, some e)

/-! ### The `authenticate` interceptor (`internal/server/server.go`) -/

/-- An X.509 certificate, reduced to the field the code reads:
`Subject.CommonName`. -/
structure Cert where
  commonName : String
  deriving Repr, DecidableEq

/-- `credentials.TLSInfo`, reduced to `State.VerifiedChains`. -/
structure TLSInfo where
  verifiedChains : List (List Cert)
  deriving Repr, DecidableEq

/-- `peer.Peer`, reduced to its `AuthInfo` field (`nil` or TLS info). -/
structure PeerInfo where
  authInfo : Option TLSInfo
  deriving Repr, DecidableEq

/-- `authenticate(ctx)`: with no peer in the context, fail with a
`codes.Unknown` status; with a peer whose `AuthInfo` is `nil`, attach the
empty subject; otherwise read `VerifiedChains[0][0].Subject.CommonName`.
The outer `Option` is `none` exactly when the Go code would panic on the
`[0][0]` indexing (no verified chain / empty first chain). -/
def authenticate (p : Option PeerInfo) : Option (Except GrpcStatus String) :=
  match p with
  | none => some (.error (GrpcStatus.new codes.Unknown "couldn't find peer info"))
  | some peer =>
    match peer.authInfo with
    | none => some (.ok "")
    | some tlsInfo =>
      match tlsInfo.verifiedChains.head?.bind List.head? with
      | none => none
      | some cert => some (.ok cert.commonName)

/-- `grpc_auth.UnaryServerInterceptor(authenticate)`: run `authenticate`;
on error return that error without invoking the handler; on success
invoke the handler on the context carrying the subject. -/
def unaryInterceptAuth {ρ : Type} (p : Option PeerInfo)
    (handler : String → Except GrpcStatus ρ) : Option (Except GrpcStatus ρ) :=
  (authenticate p).map fun r =>
    match r with
    | .error e => .error e
    | .ok subj => handler subj

/-! ### The HTTP consume handler (`Part1 internal/server/http.go`) -/

/-- The error outcome of `Log.Read` as `handleConsume` distinguishes it:
the sentinel `ErrOffsetNotFound`, or any other error. `ρ` is the record
type (opaque to the handler). -/
inductive HttpReadError
  | offsetNotFound
  | other (msg : String)
  deriving Repr, DecidableEq

/-- The reply `handleConsume` writes: an HTTP status code and, on the
success path, the JSON-encoded `ConsumeResponse` wrapping the record. -/
structure HttpReply (ρ : Type) where
  status : Nat
  body : Option ρ
  deriving Repr, DecidableEq

/-- Observable calls `handleConsume` makes on the log. -/
inductive HttpEv
  | readEv (off : Nat)
  deriving Repr, DecidableEq

/-- `httpServer.handleConsume`: decode the request body (400 on failure,
before any `Read`); call `Log.Read(req.Offset)` (404 on
`ErrOffsetNotFound`, 500 on any other error); JSON-encode the
`ConsumeResponse` (500 on failure, `encodeOk = false`); otherwise the
implicit 200 with the encoded record. -/
def handleConsume {ρ : Type} (decodeResult : Except String ConsumeRequest)
    (logRead : Nat → Except HttpReadError ρ) (encodeOk : Bool) :
    HttpReply ρ × List HttpEv :=
  match decodeResult with
  | .error _ => ({ status := 400, body := none }, [])
  | .ok req =>
    match logRead req.offset with
    | .error .offsetNotFound => ({ status := 404, body := none }, [.readEv req.offset])
    | .error (.other _) => ({ status := 500, body := none }, [.readEv req.offset])
    | .ok record =>
      if encodeOk then ({ status := 200, body := some record }, [.readEv req.offset])
      else ({ status := 500, body := none }, [.readEv req.offset])

/-! ### Claims -/

/-- C1 counterexample: the claim says the code returned for a Consume one
past the highest offset differs from the unknown code used for generic
errors; but `ErrOffsetOutOfRange.GRPStatus` (here at offset 1, the offset
one past the single record of the boundary test) uses `codes.Unknown`,
exactly the generic-error code. -/
theorem C1_counterexample :
    (ErrOffsetOutOfRange.GRPStatus 1).code = genericErrorCode := rfl

/-- C1 (amended): `ErrOffsetOutOfRange` maps to `codes.Unknown` — the same
transport code as generic errors, not a distinct one — while its status
does carry the offending offset in the message and an `en-US`
`LocalizedMessage` detail naming the offset. -/
theorem C1_status_shape (o : Nat) :
    (ErrOffsetOutOfRange.GRPStatus o).code = codes.Unknown ∧
    (ErrOffsetOutOfRange.GRPStatus o).message = "offset out of range: " ++ toString o ∧
    (ErrOffsetOutOfRange.GRPStatus o).details =
      [{ locale := "en-US",
         message := "The requested offset is outside the log's range: " ++ toString o }] :=
  ⟨rfl, rfl, rfl⟩

/-- C3: a successful `store.Append(p)` on a store of size `S` returns
`(8 + len p, S)`, appends to the write buffer exactly the 8-byte
big-endian encoding of `len p` followed by `p`, leaves the size equal to
`S + 8 + len p`, and does not touch the underlying file. -/
theorem C3_append_postcondition (s : Store) (p : List Nat) :
    (Store.Append s p).1.1 = 8 + p.length ∧
    (Store.Append s p).1.2 = s.size ∧
    (Store.Append s p).2.buf = s.buf ++ (putUint64BE p.length ++ p) ∧
    (putUint64BE p.length).length = 8 ∧
    (Store.Append s p).2.size = s.size + (8 + p.length) ∧
    (Store.Append s p).2.fileData = s.fileData := by
  refine ⟨?_, rfl, ?_, rfl, ?_, rfl⟩
  · show p.length + lenWidth = 8 + p.length
    unfold lenWidth
    omega
  · show (s.buf ++ putUint64BE p.length) ++ p = s.buf ++ (putUint64BE p.length ++ p)
    exact List.append_assoc ..
  · show s.size + (p.length + lenWidth) = s.size + (8 + p.length)
    unfold lenWidth
    omega

/-- C5: in the `ConsumeStream` loop, an `ErrOffsetOutOfRange` from
`Consume` leads to another iteration with the state unchanged (same
offset, nothing sent, no error), and the handler returns `nil` exactly
when the stream context is done. -/
theorem C5_oor_never_terminates (st : LoopState) :
    (∀ sendErr : Option String,
      consumeStreamStep false .offsetOutOfRange sendErr st = .cont st) ∧
    (∀ (ctxDone : Bool) (res : ConsumeOutcome) (sendErr : Option String),
      consumeStreamStep ctxDone res sendErr st = .done none ↔ ctxDone = true) := by
  constructor
  · intro sendErr
    rfl
  · intro ctxDone res sendErr
    cases ctxDone with
    | true => simp [consumeStreamStep]
    | false =>
      simp only [consumeStreamStep, Bool.false_eq_true, if_false, iff_false]
      cases res with
      | ok r => cases sendErr <;> simp
      | offsetOutOfRange => simp
      | otherErr e => simp

/-- C8: whenever `store.Append(p)` takes an error path (either buffered
write fails), it returns `(0, 0, err)` and the `size` field is unchanged;
`size` advances only on the fully successful path. -/
theorem C8_append_error_atomic (s : Store) (p : List Nat) (o1 o2 : WriteOutcome)
    (herr : (s.AppendF p o1 o2).1.2 = true) :
    (s.AppendF p o1 o2).1.1 = (0, 0) ∧ (s.AppendF p o1 o2).2.size = s.size := by
  cases o1 <;> cases o2 <;> simp_all [Store.AppendF]

/-- C8 witness: a concrete failing first write on a fresh store. -/
theorem C8_append_error_atomic_witness :
    ((newStore []).AppendF [1] (.fail []) .ok).1.2 = true ∧
    ((newStore []).AppendF [1] (.fail []) .ok).1.1 = (0, 0) ∧
    ((newStore []).AppendF [1] (.fail []) .ok).2.size = (newStore []).size :=
  ⟨rfl, (C8_append_error_atomic (newStore []) [1] (.fail []) .ok rfl).1,
    (C8_append_error_atomic (newStore []) [1] (.fail []) .ok rfl).2⟩

/-- C9: `authenticate` fails with a `codes.Unknown` status when no peer is
present (the handler is never invoked — the result is the same for every
handler); with a peer whose `AuthInfo` is `nil` it proceeds to the
handler with the empty subject; otherwise the subject is the common name
of the first certificate of the first verified TLS chain. -/
theorem C9_authenticate_subject :
    (∀ {ρ : Type} (handler : String → Except GrpcStatus ρ),
      unaryInterceptAuth none handler =
        some (.error (GrpcStatus.new codes.Unknown "couldn't find peer info"))) ∧
    (∀ {ρ : Type} (handler : String → Except GrpcStatus ρ),
      unaryInterceptAuth (some { authInfo := none }) handler = some (handler "")) ∧
    (∀ {ρ : Type} (handler : String → Except GrpcStatus ρ) (cn : String)
      (certs : List Cert) (chains : List (List Cert)),
      unaryInterceptAuth
        (some { authInfo := some { verifiedChains := ({ commonName := cn } :: certs) :: chains } })
        handler = some (handler cn)) :=
  ⟨fun _ => rfl, fun _ => rfl, fun _ _ _ _ => rfl⟩

/-- Positional read of a middle chunk of a concatenation: reading
`B.length` bytes at offset `A.length` from `A ++ B ++ rest` yields `B`. -/
theorem readAtFile_append (A B rest : List Nat) :
    readAtFile (A ++ B ++ rest) A.length B.length = some B := by
  unfold readAtFile
  rcases Nat.eq_zero_or_pos B.length with h | h
  · rw [if_pos h, List.eq_nil_of_length_eq_zero h]
  · rw [if_neg (by omega), if_pos (by simp), List.append_assoc, List.drop_left,
      List.take_left]

/-- C2: read-after-append round-trip. For any store whose `size` field
agrees with the bytes it holds (file plus buffer — true of every state
reachable from `newStore`) and any payload that fits in `u64`, a
successful `Append(p)` followed by `Read` at the returned position yields
exactly `p`; the flush at the top of `Read` makes the buffered frame
visible. -/
theorem C2_read_after_append (s : Store) (p : List Nat)
    (hwf : s.size = s.fileData.length + s.buf.length)
    (hp : p.length < 18446744073709551616) :
    ((Store.Append s p).2.Read (Store.Append s p).1.2).1 = some p := by
  have h2 : (Store.Append s p).2 =
      { fileData := s.fileData, buf := s.buf ++ putUint64BE p.length ++ p,
        size := s.size + (p.length + lenWidth) } := rfl
  have hpos : (Store.Append s p).1.2 = s.size := rfl
  rw [h2, hpos]
  have hdata : s.fileData ++ (s.buf ++ putUint64BE p.length ++ p) =
      (s.fileData ++ s.buf) ++ putUint64BE p.length ++ p := by
    simp [List.append_assoc]
  have hlen : s.size = (s.fileData ++ s.buf).length := by
    simp [hwf]
  have h1 : readAtFile (s.fileData ++ (s.buf ++ putUint64BE p.length ++ p))
      s.size lenWidth = some (putUint64BE p.length) := by
    rw [hdata, hlen, show lenWidth = (putUint64BE p.length).length from rfl]
    exact readAtFile_append _ _ _
  have hgot : getUint64BE (putUint64BE p.length) = p.length :=
    getUint64BE_putUint64BE p.length hp
  have h2' : readAtFile (s.fileData ++ (s.buf ++ putUint64BE p.length ++ p))
      (s.size + lenWidth) p.length = some p := by
    rw [hdata, show (s.fileData ++ s.buf) ++ putUint64BE p.length ++ p =
        ((s.fileData ++ s.buf) ++ putUint64BE p.length) ++ p ++ [] by simp,
      show s.size + lenWidth = ((s.fileData ++ s.buf) ++ putUint64BE p.length).length by
        simp [hlen, lenWidth, putUint64BE_length]
        omega]
    exact readAtFile_append _ _ _
  simp only [Store.Read, Store.flushBuf, h1, hgot, h2']

/-- C2 witness: a fresh empty store, payload `[42]`. -/
theorem C2_read_after_append_witness :
    (newStore []).size = (newStore []).fileData.length + (newStore []).buf.length ∧
    ([42] : List Nat).length < 18446744073709551616 ∧
    ((Store.Append (newStore []) [42]).2.Read (Store.Append (newStore []) [42]).1.2).1 =
      some [42] :=
  ⟨rfl, by decide, C2_read_after_append (newStore []) [42] rfl (by decide)⟩

/-- C7: `Produce` always calls `Authorize(subject, "*", "produce")` first
and `Consume` always calls `Authorize(subject, "*", "consume")` first
(the first collaborator event is the authorize call); when the authorizer
returns an error, the RPC returns that error with no response, the commit
log state is unchanged, and no `Append` or `Read` event occurs. -/
theorem C7_authorize_before_log {σ : Type} (cl : CommitLogOps σ)
    (authorize : String → String → String → Option String)
    (subject : String) (st : σ) :
    (∀ req : ProduceRequest,
      (grpcServer.Produce cl authorize subject req st).2.2.head? =
        some (.authCall subject objectWildcard produceAction)) ∧
    (∀ (req : ProduceRequest) (e : String),
      authorize subject objectWildcard produceAction = some e →
      grpcServer.Produce cl authorize subject req st =
        (.error e, st, [.authCall subject objectWildcard produceAction])) ∧
    (∀ req : ConsumeRequest,
      (grpcServer.Consume cl authorize subject req st).2.2.head? =
        some (.authCall subject objectWildcard consumeAction)) ∧
    (∀ (req : ConsumeRequest) (e : String),
      authorize subject objectWildcard consumeAction = some e →
      grpcServer.Consume cl authorize subject req st =
        (.error e, st, [.authCall subject objectWildcard consumeAction])) := by
  refine ⟨?_, ?_, ?_, ?_⟩
  · intro req
    unfold grpcServer.Produce
    cases authorize subject objectWildcard produceAction with
    | none => cases cl.append st req.record with
      | error e => rfl
      | ok r => rfl
    | some e => rfl
  · intro req e he
    unfold grpcServer.Produce
    rw [he]
  · intro req
    unfold grpcServer.Consume
    cases authorize subject objectWildcard consumeAction with
    | none => cases cl.read st req.offset with
      | error e => rfl
      | ok r => rfl
    | some e => rfl
  · intro req e he
    unfold grpcServer.Consume
    rw [he]

/-- C7 witness: a denying authorizer on a concrete commit log. -/
theorem C7_authorize_before_log_witness :
    grpcServer.Produce (σ := Nat)
        { append := fun n _ => .ok (n, n + 1), read := fun _ _ => .error "e" }
        (fun _ _ _ => some "denied") "nobody"
        { record := { value := [1], offset := 0 } } 0 =
      (.error "denied", 0, [.authCall "nobody" objectWildcard produceAction]) :=
  (C7_authorize_before_log
    { append := fun n _ => .ok (n, n + 1), read := fun _ _ => .error "e" }
    (fun _ _ _ => some "denied") "nobody" 0).2.1
    { record := { value := [1], offset := 0 } } "denied" rfl

/-- C10: `handleConsume` replies 400 on a body-decode failure without
calling `Read`; 404 exactly when `Log.Read` returns `ErrOffsetNotFound`;
500 on any other read error or on a response-encoding failure; and
otherwise 200 with the JSON-encoded `ConsumeResponse` carrying the
record. -/
theorem C10_handle_consume_status {ρ : Type} :
    (∀ (msg : String) (logRead : Nat → Except HttpReadError ρ) (enc : Bool),
      handleConsume (.error msg) logRead enc = ({ status := 400, body := none }, [])) ∧
    (∀ (req : ConsumeRequest) (logRead : Nat → Except HttpReadError ρ) (enc : Bool),
      logRead req.offset = .error .offsetNotFound →
      handleConsume (.ok req) logRead enc =
        ({ status := 404, body := none }, [.readEv req.offset])) ∧
    (∀ (req : ConsumeRequest) (logRead : Nat → Except HttpReadError ρ) (enc : Bool)
      (msg : String),
      logRead req.offset = .error (.other msg) →
      handleConsume (.ok req) logRead enc =
        ({ status := 500, body := none }, [.readEv req.offset])) ∧
    (∀ (req : ConsumeRequest) (logRead : Nat → Except HttpReadError ρ) (r : ρ),
      logRead req.offset = .ok r →
      handleConsume (.ok req) logRead false =
        ({ status := 500, body := none }, [.readEv req.offset]) ∧
      handleConsume (.ok req) logRead true =
        ({ status := 200, body := some r }, [.readEv req.offset])) ∧
    (∀ (dr : Except String ConsumeRequest) (logRead : Nat → Except HttpReadError ρ)
      (enc : Bool),
      (handleConsume dr logRead enc).1.status = 404 ↔
        ∃ req, dr = .ok req ∧ logRead req.offset = .error .offsetNotFound) := by
  refine ⟨fun _ _ _ => rfl, ?_, ?_, ?_, ?_⟩
  · intro req logRead enc h
    simp [handleConsume, h]
  · intro req logRead enc msg h
    simp [handleConsume, h]
  · intro req logRead r h
    constructor <;> simp [handleConsume, h]
  · intro dr logRead enc
    constructor
    · intro h404
      cases dr with
      | error msg => simp [handleConsume] at h404
      | ok req =>
        refine ⟨req, rfl, ?_⟩
        cases hr : logRead req.offset with
        | error err =>
          cases err with
          | offsetNotFound => rfl
          | other m => simp [handleConsume, hr] at h404
        | ok r =>
          cases enc <;> simp [handleConsume, hr] at h404
    · rintro ⟨req, rfl, hr⟩
      simp [handleConsume, hr]

/-- C10 witness: decode succeeds, the read misses (offset 1 over a
one-record log), reply is 404 with the read performed. -/
theorem C10_handle_consume_status_witness :
    handleConsume (ρ := Nat) (.ok { offset := 1 })
        (fun o => if o = 0 then .ok 7 else .error .offsetNotFound) true =
      ({ status := 404, body := none }, [.readEv 1]) :=
  C10_handle_consume_status.2.1 { offset := 1 }
    (fun o => if o = 0 then .ok 7 else .error .offsetNotFound) true rfl

/-- `store.Read` only flushes: its state effect is exactly `flushBuf`. -/
theorem Store.Read_state (s : Store) (pos : Nat) : (s.Read pos).2 = s.flushBuf := by
  simp only [Store.Read]
  split
  · rfl
  · split <;> rfl

/-- Running any operation sequence advances `size` by exactly the sum of
`8 + len p` over the successful appends in it. -/
theorem runOps_size (ops : List StoreOp) :
    ∀ s : Store, (runOps s ops).size = s.size + appendedSum ops := by
  induction ops with
  | nil =>
    intro s
    simp [runOps, appendedSum]
  | cons op rest ih =>
    intro s
    cases op with
    | append p o1 o2 =>
      show (runOps (s.AppendF p o1 o2).2 rest).size = _
      rw [ih]
      cases o1 <;> cases o2 <;>
        simp [Store.AppendF, appendedSum, lenWidth] <;> omega
    | read pos =>
      show (runOps (s.Read pos).2 rest).size = _
      rw [ih, Store.Read_state]
      simp [Store.flushBuf, appendedSum]
    | readAt off n =>
      show (runOps (s.ReadAtOp off n).2 rest).size = _
      rw [ih]
      simp [Store.ReadAtOp, Store.flushBuf, appendedSum]
    | close =>
      show (runOps s.CloseOp rest).size = _
      rw [ih]
      simp [Store.CloseOp, Store.flushBuf, appendedSum]

/-- Fault-free operation sequences preserve the correspondence between
`size` and the bytes held in the file plus the buffer. -/
theorem runOps_wf (ops : List StoreOp) :
    ∀ s : Store, ops.all StoreOp.ok = true →
      s.fileData.length + s.buf.length = s.size →
      (runOps s ops).fileData.length + (runOps s ops).buf.length = (runOps s ops).size := by
  induction ops with
  | nil =>
    intro s _ h
    exact h
  | cons op rest ih =>
    intro s hall h
    rw [List.all_cons, Bool.and_eq_true] at hall
    cases op with
    | append p o1 o2 =>
      cases o1 with
      | fail r => simp [StoreOp.ok] at hall
      | ok =>
        cases o2 with
        | fail r => simp [StoreOp.ok] at hall
        | ok =>
          show (runOps (s.AppendF p .ok .ok).2 rest).fileData.length + _ = _
          apply ih _ hall.2
          simp [Store.AppendF, putUint64BE_length, lenWidth]
          omega
    | read pos =>
      show (runOps (s.Read pos).2 rest).fileData.length + _ = _
      apply ih _ hall.2
      rw [Store.Read_state]
      simp [Store.flushBuf]
      omega
    | readAt off n =>
      show (runOps (s.ReadAtOp off n).2 rest).fileData.length + _ = _
      apply ih _ hall.2
      simp [Store.ReadAtOp, Store.flushBuf]
      omega
    | close =>
      show (runOps s.CloseOp rest).fileData.length + _ = _
      apply ih _ hall.2
      simp [Store.CloseOp, Store.flushBuf]
      omega

/-- C4: after any sequence of operations starting from `newStore` on a
file holding `f`, the `size` field equals `f.length` plus the sum of
`8 + len p` over the successfully appended payloads; and on a fault-free
run, flushing makes the underlying file's length equal to `size`. -/
theorem C4_size_invariant (f : List Nat) (ops : List StoreOp) :
    (runOps (newStore f) ops).size = f.length + appendedSum ops ∧
    (ops.all StoreOp.ok = true →
      (runOps (newStore f) ops).flushBuf.fileData.length = (runOps (newStore f) ops).size) := by
  constructor
  · rw [runOps_size]
    rfl
  · intro hall
    have hwf := runOps_wf ops (newStore f) hall (by simp [newStore])
    simp [Store.flushBuf]
    omega

/-- C4 witness: one append of two bytes then a read, on a one-byte file;
both conjuncts at work (size `1 + 10 = 11`, flushed file length 11). -/
theorem C4_size_invariant_witness :
    (List.all [StoreOp.append [1, 2] .ok .ok, StoreOp.read 0] StoreOp.ok = true) ∧
    (runOps (newStore [0])
        [StoreOp.append [1, 2] .ok .ok, StoreOp.read 0]).flushBuf.fileData.length =
      (runOps (newStore [0]) [StoreOp.append [1, 2] .ok .ok, StoreOp.read 0]).size :=
  ⟨rfl, (C4_size_invariant [0] [StoreOp.append [1, 2] .ok .ok, StoreOp.read 0]).2 rfl⟩

/-- Characterization of `fuel` iterations of the `ConsumeStream` loop over
a fixed log: the responses sent are the records from the starting offset
on, in order, one per fuel unit while they last; the offset advances by
the number of records sent; the handler never returns. -/
theorem consumeStreamRun_eq (log : List ApiRecord) :
    ∀ (fuel o : Nat) (acc : List ConsumeResponse),
      consumeStreamRun log fuel { offset := o, sent := acc } =
        ({ offset := o + min fuel (log.length - o),
           sent := acc ++ ((log.drop o).take fuel).map (fun r => { record := r }) }, none) := by
  intro fuel
  induction fuel with
  | zero =>
    intro o acc
    simp [consumeStreamRun]
  | succ n ih =>
    intro o acc
    show (match consumeStreamStep false (consumeFromLog log o) none { offset := o, sent := acc } with
          | .cont st1 => consumeStreamRun log n st1
          | .done e => ({ offset := o, sent := acc }, some e)) = _
    cases hg : log.get? o with
    | some r =>
      have hg2 : log[o]? = some r := by
        rw [← List.get?_eq_getElem?]
        exact hg
      obtain ⟨ho, hre⟩ := List.getElem?_eq_some_iff.mp hg2
      have hstep : consumeStreamStep false (consumeFromLog log o) none
          { offset := o, sent := acc } =
          .cont { offset := o + 1, sent := acc ++ [{ record := r }] } := by
        simp [consumeStreamStep, consumeFromLog, hg2]
      rw [hstep]
      show consumeStreamRun log n { offset := o + 1, sent := acc ++ [{ record := r }] } = _
      rw [ih]
      have hdrop : log.drop o = r :: log.drop (o + 1) := by
        rw [List.drop_eq_getElem_cons ho, hre]
      refine congrArg (fun x => (x, none)) ?_
      have hoff : o + 1 + min n (log.length - (o + 1)) = o + min (n + 1) (log.length - o) := by
        omega
      have hsent : (acc ++ [{ record := r }]) ++
            ((log.drop (o + 1)).take n).map (fun x => { record := x }) =
          acc ++ ((log.drop o).take (n + 1)).map (fun x => { record := x }) := by
        rw [hdrop]
        simp
      rw [LoopState.mk.injEq]
      exact ⟨hoff, hsent⟩
    | none =>
      have ho : log.length ≤ o := List.get?_eq_none.mp hg
      have hg2 : log[o]? = none := by
        rw [← List.get?_eq_getElem?]
        exact hg
      have hstep : consumeStreamStep false (consumeFromLog log o) none
          { offset := o, sent := acc } = .cont { offset := o, sent := acc } := by
        simp [consumeStreamStep, consumeFromLog, hg2]
      rw [hstep]
      show consumeStreamRun log n { offset := o, sent := acc } = _
      rw [ih]
      have hd : log.drop o = [] := List.drop_eq_nil_of_le ho
      rw [hd]
      have : log.length - o = 0 := by omega
      simp [this]

/-- C6: `ConsumeStream` starting at offset `o` over a log emits exactly
the records at `o, o+1, o+2, ...` in order, one per successful send, the
offset advancing with each send; in particular over a two-record log a
stream starting at 0 emits the records with offsets 0 then 1 and their
original values, and the handler keeps looping without error. -/
theorem C6_consume_stream_order :
    (∀ (log : List ApiRecord) (o fuel : Nat),
      consumeStreamRun log fuel { offset := o, sent := [] } =
        ({ offset := o + min fuel (log.length - o),
           sent := ((log.drop o).take fuel).map (fun r => { record := r }) }, none)) ∧
    (∀ v1 v2 : List Nat,
      consumeStreamRun
          [{ value := v1, offset := 0 }, { value := v2, offset := 1 }] 2
          { offset := 0, sent := [] } =
        ({ offset := 2,
           sent := [{ record := { value := v1, offset := 0 } },
                    { record := { value := v2, offset := 1 } }] }, none)) := by
  constructor
  · intro log o fuel
    rw [consumeStreamRun_eq]
    simp
  · intro v1 v2
    rfl
